import Mathlib

/-!
Verification of the andromede-modeling-prototype compilation pipeline
(`andromede/simulation/optimization.py`, `andromede/study/data.py`,
`andromede/study/network.py`) against its natural-language specification.

Python floats are modelled as rationals (`ℚ`), Python ints as `ℤ`/`ℕ`,
Python dicts as association lists or lookup functions, and raising an
exception as returning `none` / `Except.error`.
-/

namespace Andromede

/-! ## Data model shared by the expression and optimization layers -/

/-- Modelled from the spec (§3): the time-operator variant attached to a
`Term`: `Shift(offset list)` or `Evaluation(absolute-index list)`
(the classes `TimeShift` / `TimeEvaluation` of
`andromede.expression.time_operator`, which is not part of the sources
under verification). Each carries its `time_ids` list. -/
inductive TimeOperator where
  | timeShift (timeIds : List ℤ)
  | timeEvaluation (timeIds : List ℤ)
deriving DecidableEq

/-- Modelled from the spec (§3): the time-aggregator variant `Sum(roll flag)`
(class `TimeSum` of `andromede.expression.time_operator`). -/
inductive TimeAggregator where
  | timeSum (stayRoll : Bool)
deriving DecidableEq

/-- Modelled from the spec (§3): the scenario-operator variant `Expectation`
(class `Expectation` of `andromede.expression.scenario_operator`). -/
inductive ScenarioOperator where
  | expectation
deriving DecidableEq

/-- `IndexingStructure`: pair of booleans (varies-by-time,
varies-by-scenario), from `andromede.expression.indexing_structure`. -/
structure IndexingStructure where
  time : Bool
  scenario : Bool
deriving DecidableEq

/-- Modelled from the spec (§3): a `Term` of a `LinearExpression`
(`andromede.simulation.linear_expression`, not part of the sources under
verification): component id, variable name, coefficient, the variable's
indexing structure, and the three optional operators.  The field
`structure'` renders the Python field `structure` (a Lean keyword). -/
structure Term where
  coefficient : ℚ
  componentId : String
  variableName : String
  timeOperator : Option TimeOperator := none
  timeAggregator : Option TimeAggregator := none
  scenarioOperator : Option ScenarioOperator := none
  structure' : IndexingStructure := ⟨true, true⟩
deriving DecidableEq

/-- Modelled from the spec (§3): the key under which terms merge:
(component id, variable name, time-operator, time-aggregator,
scenario-operator). -/
structure TermKey where
  componentId : String
  variableName : String
  timeOperator : Option TimeOperator
  timeAggregator : Option TimeAggregator
  scenarioOperator : Option ScenarioOperator
deriving DecidableEq

def termKey (t : Term) : TermKey :=
  ⟨t.componentId, t.variableName, t.timeOperator, t.timeAggregator,
   t.scenarioOperator⟩

/-- Modelled from the spec (§3, §4.1): a `LinearExpression` is a mapping of
term-key to `Term` plus a scalar constant.  The Python dict is rendered as
a list of terms; the invariant that zero-coefficient terms are absent is
maintained by the constructor and the operations below. -/
structure LinearExpression where
  terms : List Term
  constant : ℚ
deriving DecidableEq

/-- Modelled from the spec: the `LinearExpression.__init__` constructor
prunes terms whose coefficient is exactly zero
(test `test_instantiate_linear_expression_from_dict`). -/
def mkLinearExpression (ts : List Term) (c : ℚ) : LinearExpression :=
  ⟨ts.filter (fun t => t.coefficient ≠ 0), c⟩

/-- Coefficient carried by an expression for a given term key (0 when the
key is absent, as for a missing dict entry). -/
def coeffOf (e : LinearExpression) (k : TermKey) : ℚ :=
  match e.terms.find? (fun t => termKey t = k) with
  | some t => t.coefficient
  | none => 0

/-- Modelled from the spec (§4.1): addition merges the two term maps
(union of keys, coefficients summed on common keys), prunes
zero-coefficient terms and adds the constants. -/
def addExpr (a b : LinearExpression) : LinearExpression :=
  let allTerms :=
    a.terms ++ b.terms.filter
      (fun t => ¬ a.terms.any (fun u => termKey u = termKey t))
  let merged := allTerms.map
    (fun t => { t with coefficient := coeffOf a (termKey t) + coeffOf b (termKey t) })
  ⟨merged.filter (fun t => t.coefficient ≠ 0), a.constant + b.constant⟩

/-- Modelled from the spec (§4.1): negation negates every coefficient and
the constant. -/
def negExpr (a : LinearExpression) : LinearExpression :=
  ⟨a.terms.map (fun t => { t with coefficient := -t.coefficient }), -a.constant⟩

/-- Modelled from the spec (§4.1): subtraction is addition of the
negation. -/
def subExpr (a b : LinearExpression) : LinearExpression :=
  addExpr a (negExpr b)

/-- Modelled from the spec (§4.1): multiplication is legal only if one side
has no terms (a pure constant); it scales the other side's coefficients
and constant (pruning any zero coefficient); two non-constant operands
fail with the "two non constant" error
(test `test_multiplication_of_two_non_constant_terms_should_raise_value_error`). -/
def mulExpr (a b : LinearExpression) : Except String LinearExpression :=
  if ¬ a.terms.isEmpty ∧ ¬ b.terms.isEmpty then
    .error "Cannot multiply two non constant expression"
  else
    let constExpr := if a.terms.isEmpty then a else b
    let other := if a.terms.isEmpty then b else a
    .ok ⟨(other.terms.map
            (fun t => { t with coefficient := t.coefficient * constExpr.constant })).filter
            (fun t => t.coefficient ≠ 0),
         other.constant * constExpr.constant⟩

/-- Modelled from the spec (§4.1): the divisor must be a pure constant
(else a distinct error) and nonzero (else the division error); division
scales coefficients and constant and prunes zero coefficients
(tests `test_division_by_zero_sould_raise_zero_division_error` and
`test_division_by_non_constant_expr_sould_raise_value_error`). -/
def divExpr (a b : LinearExpression) : Except String LinearExpression :=
  if ¬ b.terms.isEmpty then
    .error "Cannot divide by a non constant expression"
  else if b.constant = 0 then
    .error "Cannot divide expression by zero"
  else
    .ok ⟨(a.terms.map
            (fun t => { t with coefficient := t.coefficient / b.constant })).filter
            (fun t => t.coefficient ≠ 0),
         a.constant / b.constant⟩

/-- Modelled from the spec (§4.1): a term's contribution to
`number_of_instances`: the length of its time-operator index list,
defaulting to 1. -/
def termNumberOfInstances (t : Term) : ℕ :=
  match t.timeOperator with
  | some (.timeShift ids) => ids.length
  | some (.timeEvaluation ids) => ids.length
  | none => 1

/-- Modelled from the spec (§4.1): `number_of_instances()` is the maximum,
over all terms, of the length of that term's time-operator index list
(default 1). -/
def numberOfInstances (e : LinearExpression) : ℕ :=
  e.terms.foldl (fun m t => max m (termNumberOfInstances t)) 1

/-! ## Optimization context (`optimization.py`) -/

/-- `TimestepComponentVariableKey`: identifies the solver variable for one
timestep and one component variable (`optimization.py:51`).  The two
optional indices are always supplied along the code paths verified here,
so they are carried as plain values. -/
structure TimestepComponentVariableKey where
  componentId : String
  variableName : String
  blockTimestep : ℤ
  scenario : ℕ
deriving DecidableEq

/-- `BlockBorderManagement` (`optimization.py:278`). -/
inductive BlockBorderManagement where
  | IGNORE_OUT_OF_FRAME
  | CYCLE
deriving DecidableEq

/-- `OptimizationContext` (`optimization.py:289`): the slice of its state
used by variable lookup — the time block, the scenario count, the border
policy and the registry of solver variables.  The Python dict
`_component_variables` is carried as its lookup function (a missing key,
which raises `KeyError` in Python, is `none`); solver-variable handles
are numbered by `ℕ`. -/
structure OptimizationContext where
  blockTimesteps : List ℤ
  scenarios : ℕ
  borderManagement : BlockBorderManagement
  componentVariables : TimestepComponentVariableKey → Option ℕ

/-- `OptimizationContext.block_length` (`optimization.py:322`). -/
def blockLength (context : OptimizationContext) : ℕ :=
  context.blockTimesteps.length

/-- `OptimizationContext._manage_border_timesteps` (`optimization.py:337`):
under CYCLE the timestep is wrapped modulo the block length (`%` on a
positive modulus agrees with `Int.emod`; a zero block length, where
Python's `%` raises `ZeroDivisionError`, is `none`); any other policy
raises `NotImplementedError`, rendered as `none`. -/
def manageBorderTimesteps (context : OptimizationContext) (timestep : ℤ) :
    Option ℤ :=
  match context.borderManagement with
  | .CYCLE =>
      if blockLength context = 0 then none
      else some (timestep % (blockLength context : ℤ))
  | .IGNORE_OUT_OF_FRAME => none

/-- `OptimizationContext.get_time_indices` (`optimization.py:343`). -/
def getTimeIndices (context : OptimizationContext)
    (indexStructure : IndexingStructure) : List ℕ :=
  if indexStructure.time then List.range (blockLength context)
  else List.range 1

/-- `OptimizationContext.get_scenario_indices` (`optimization.py:346`). -/
def getScenarioIndices (context : OptimizationContext)
    (indexStructure : IndexingStructure) : List ℕ :=
  if indexStructure.scenario then List.range context.scenarios
  else List.range 1

/-- `OptimizationContext.get_component_variable` (`optimization.py:350`):
the queried timestep first passes through the border policy, then is
forced to 0 when `variable_structure.time` is false; the scenario is
forced to 0 when `variable_structure.scenario` is false; the resulting
key is looked up in the registry. -/
def getComponentVariable (context : OptimizationContext)
    (blockTimestep : ℤ) (scenario : ℕ)
    (componentId variableName : String)
    (variableStructure : IndexingStructure) : Option ℕ :=
  match manageBorderTimesteps context blockTimestep with
  | none => none
  | some bt =>
      let bt' := if variableStructure.time = false then 0 else bt
      let sc' := if variableStructure.scenario = false then 0 else scenario
      context.componentVariables
        ⟨componentId, variableName, bt', sc'⟩

/-- Python dict assignment `d[k] = v` on the association-list rendering of
the registry: replaces the value of an existing key in place, else
appends the binding. -/
def dictInsert :
    List (TimestepComponentVariableKey × ℕ) →
    TimestepComponentVariableKey → ℕ →
    List (TimestepComponentVariableKey × ℕ)
  | [], k, v => [(k, v)]
  | (k', v') :: rest, k, v =>
      if k' = k then (k, v) :: rest else (k', v') :: dictInsert rest k v

/-- `OptimizationContext.register_component_variable`
(`optimization.py:377`), acting on the registry dict rendered as an
association list: builds the key and assigns
`self._component_variables[key] = variable`. -/
def registerComponentVariable
    (componentVariables : List (TimestepComponentVariableKey × ℕ))
    (blockTimestep : ℤ) (scenario : ℕ)
    (componentId variableName : String) (solverVar : ℕ) :
    List (TimestepComponentVariableKey × ℕ) :=
  dictInsert componentVariables
    ⟨componentId, variableName, blockTimestep, scenario⟩ solverVar

/-- Lookup in the association-list rendering of the registry dict. -/
def dictFind (componentVariables : List (TimestepComponentVariableKey × ℕ))
    (key : TimestepComponentVariableKey) : Option ℕ :=
  match componentVariables.find? (fun p => p.1 = key) with
  | some p => some p.2
  | none => none

/-- `_get_solver_vars` (`optimization.py:530`): dispatch over the term's
time-aggregator and time-operator; each branch looks variables up through
`getComponentVariable`.  An out-of-range `time_ids[instance]` access,
which raises `IndexError` in Python, contributes `none`. -/
def getSolverVars (term : Term) (context : OptimizationContext)
    (blockTimestep : ℤ) (scenario : ℕ) (instanceIndex : ℕ) :
    List (Option ℕ) :=
  match term.timeAggregator with
  | some _ =>
    match term.timeOperator with
    | some (.timeShift timeIds) =>
        timeIds.map (fun timeId =>
          getComponentVariable context (blockTimestep + timeId) scenario
            term.componentId term.variableName term.structure')
    | some (.timeEvaluation timeIds) =>
        timeIds.map (fun timeId =>
          getComponentVariable context timeId scenario
            term.componentId term.variableName term.structure')
    | none =>
        (List.range (blockLength context)).map (fun timeId =>
          getComponentVariable context (blockTimestep + (timeId : ℤ)) scenario
            term.componentId term.variableName term.structure')
  | none =>
    match term.timeOperator with
    | some (.timeShift timeIds) =>
        [(timeIds.get? instanceIndex).bind (fun timeId =>
          getComponentVariable context (blockTimestep + timeId) scenario
            term.componentId term.variableName term.structure')]
    | some (.timeEvaluation timeIds) =>
        [(timeIds.get? instanceIndex).bind (fun timeId =>
          getComponentVariable context timeId scenario
            term.componentId term.variableName term.structure')]
    | none =>
        [getComponentVariable context blockTimestep scenario
          term.componentId term.variableName term.structure']

/-! ## Constraint materialization (`make_constraint`, `_create_constraint`) -/

/-- `lp.Constraint.GetCoefficient` on the coefficient map of one solver
row, rendered as an association list from solver-variable handle to
coefficient (absent handles have coefficient 0). -/
def getCoeff : List (ℕ × ℚ) → ℕ → ℚ
  | [], _ => 0
  | (u, d) :: rest, v => if u = v then d else getCoeff rest v

/-- `lp.Constraint.SetCoefficient` on the coefficient map of one solver
row: replaces the coefficient of an existing handle, else appends it. -/
def setCoeff : List (ℕ × ℚ) → ℕ → ℚ → List (ℕ × ℚ)
  | [], v, c => [(v, c)]
  | (u, d) :: rest, v, c =>
      if u = v then (v, c) :: rest else (u, d) :: setCoeff rest v c

/-- Sequences the lookups of one term: in Python a failed lookup raises
before the row is completed, so any `none` aborts. -/
def allSome : List (Option ℕ) → Option (List ℕ)
  | [] => some []
  | none :: _ => none
  | some v :: rest => (allSome rest).map (fun vs => v :: vs)

/-- One materialized solver row: the result of one `solver.Constraint`
call in `make_constraint`, with its name, per-variable coefficients and
bounds. -/
structure SolverRow where
  name : String
  coeffs : List (ℕ × ℚ)
  lowerBound : ℚ
  upperBound : ℚ
deriving DecidableEq

/-- `ConstraintData` (`optimization.py:522`). -/
structure ConstraintData where
  name : String
  lowerBound : ℚ
  upperBound : ℚ
  expression : LinearExpression

/-- The inner term loop of `make_constraint` (`optimization.py:627`): for
one term, resolve its solver variables and set, for each, coefficient
`term.coefficient + GetCoefficient(var)`. -/
def addTermToRow (context : OptimizationContext) (blockTimestep : ℤ)
    (scenario : ℕ) (instanceIndex : ℕ) (coeffs : List (ℕ × ℚ))
    (term : Term) : Option (List (ℕ × ℚ)) :=
  (allSome (getSolverVars term context blockTimestep scenario
      instanceIndex)).map
    (fun solverVars =>
      solverVars.foldl
        (fun acc v => setCoeff acc v (term.coefficient + getCoeff acc v))
        coeffs)

/-- One iteration of the instance loop of `make_constraint`
(`optimization.py:625`): create the solver row under the given name, fill
its coefficients from every term of the expression, and set its bounds to
the resolved bounds minus the expression's constant. -/
def makeRow (context : OptimizationContext) (blockTimestep : ℤ)
    (scenario : ℕ) (data : ConstraintData) (name : String)
    (instanceIndex : ℕ) : Option SolverRow :=
  (data.expression.terms.foldlM
      (addTermToRow context blockTimestep scenario instanceIndex) []).map
    (fun coeffs =>
      ⟨name, coeffs,
       data.lowerBound - data.expression.constant,
       data.upperBound - data.expression.constant⟩)

/-- The instance loop of `make_constraint` (`optimization.py:621`),
processing instances `instances - remaining, …, instances - 1` while
carrying the accumulating `constraint_name` variable: when
`instances > 1`, the loop appends `_{instance}` to the name it already
holds before creating the row (the suffixes therefore pile up from one
instance to the next). -/
def makeConstraintGo (context : OptimizationContext) (blockTimestep : ℤ)
    (scenario : ℕ) (data : ConstraintData) (instances : ℕ) :
    ℕ → String → Option (List SolverRow)
  | 0, _ => some []
  | remaining + 1, name =>
      let inst := instances - (remaining + 1)
      let name' :=
        if instances > 1 then name ++ "_" ++ toString inst else name
      match makeRow context blockTimestep scenario data name' inst with
      | none => none
      | some row =>
          (makeConstraintGo context blockTimestep scenario data instances
            remaining name').map (fun rows => row :: rows)

/-- `make_constraint` (`optimization.py:608`): materializes one physical
solver row per instance; returns the rows in instance order. -/
def makeConstraint (context : OptimizationContext) (blockTimestep : ℤ)
    (scenario : ℕ) (data : ConstraintData) (instances : ℕ) :
    Option (List SolverRow) :=
  makeConstraintGo context blockTimestep scenario data instances instances
    data.name

/-- `_create_constraint` (`optimization.py:443`): the linearization and
bound evaluation of the (missing) expression layer are supplied as
functions of (timestep, scenario); the body linearizes once at the
canonical index (0, 0) to learn the number of instances, then iterates
the (timestep, scenario) policy given by the constraint's indexing,
re-linearizes at each concrete index and calls `make_constraint`. -/
def createConstraint (context : OptimizationContext)
    (constraintName : String)
    (constraintIndexing : IndexingStructure)
    (linearize : ℕ → ℕ → LinearExpression)
    (lowerBoundAt upperBoundAt : ℕ → ℕ → ℚ) :
    Option (List (ℕ × ℕ × List SolverRow)) :=
  let instancesPerTimeStep := numberOfInstances (linearize 0 0)
  ((getTimeIndices context constraintIndexing).mapM
    (fun (blockTimestep : ℕ) =>
      (getScenarioIndices context constraintIndexing).mapM
        (fun (scenario : ℕ) =>
          (makeConstraint context (blockTimestep : ℤ) scenario
              ⟨constraintName, lowerBoundAt blockTimestep scenario,
               upperBoundAt blockTimestep scenario,
               linearize blockTimestep scenario⟩
              instancesPerTimeStep).map
            (fun rows => (blockTimestep, scenario, rows))))).map
    List.flatten

/-! ## Objective assembly (`_create_objective`) -/

/-- The objective state: per-handle coefficients
(`Objective.SetCoefficient` / `GetCoefficient`) and the offset. -/
structure Objective where
  coeffs : List (ℕ × ℚ)
  offset : ℚ
deriving DecidableEq

/-- The per-term body of `_create_objective` (`optimization.py:494`): a
term whose scenario operator is an `Expectation` gets weight
`1 / scenarios` and ranges over every scenario, any other term gets
weight 1 and scenario range `range(1)`; each resolved solver variable
receives `GetCoefficient(var) + weight * coefficient`.  (For
`scenarios = 0` Python's `1 / 0` raises; the claims below assume a
positive scenario count.) -/
def applyObjectiveTerm (context : OptimizationContext)
    (coeffs : List (ℕ × ℚ)) (term : Term) : Option (List (ℕ × ℚ)) :=
  let weight : ℚ :=
    match term.scenarioOperator with
    | some .expectation => 1 / (context.scenarios : ℚ)
    | none => 1
  let scenarioIds : List ℕ :=
    match term.scenarioOperator with
    | some .expectation => List.range context.scenarios
    | none => List.range 1
  scenarioIds.foldlM
    (fun acc scenario =>
      (allSome (getSolverVars term context 0 scenario 0)).map
        (fun solverVars =>
          solverVars.foldl
            (fun o v => setCoeff o v (getCoeff o v + weight * term.coefficient))
            acc))
    coeffs

/-- `_create_objective` (`optimization.py:484`): fold every term of the
linearized contribution into the shared objective, then add the
expression's constant to the offset. -/
def createObjective (context : OptimizationContext)
    (linearExpr : LinearExpression) (obj : Objective) : Option Objective :=
  (linearExpr.terms.foldlM (applyObjectiveTerm context) obj.coeffs).map
    (fun cs => ⟨cs, linearExpr.constant + obj.offset⟩)

/-! ## Problem builder (`OptimizationProblem`) -/

/-- Modelled from the spec (§1, §4.4): the problem context of a model
variable — the investment vs. operational partitioning
(`andromede.model.common.ProblemContext`, not part of the sources under
verification; `optimization.py` compares against
`ProblemContext.operational`). -/
inductive ProblemContext where
  | operational
  | investment
deriving DecidableEq

/-- The slice of a declared model variable used by variable creation:
name, indexing structure and problem context (bounds do not affect which
solver variables are registered and are left out). -/
structure ModelVariable where
  name : String
  structure' : IndexingStructure
  context : ProblemContext
deriving DecidableEq

/-- A declared model parameter: name and indexing structure. -/
structure ParameterSpec where
  name : String
  structure' : IndexingStructure
deriving DecidableEq

/-- The slice of a model used by the builder: declared variables and
parameters and the two optional objective contributions (each carried as
an opaque expression token). -/
structure ModelDef where
  variables' : List ModelVariable
  parameters : List ParameterSpec
  objectiveOperationalContribution : Option String := none
  objectiveInvestmentContribution : Option String := none

/-- `Component` (`network.py:14`): an instance of a model. -/
structure Component where
  model : ModelDef
  id : String

/-- `Network` (`network.py:116`): nodes and components (nodes are
components too). -/
structure Network where
  nodes : List Component
  components : List Component

/-- `Network.all_components` (`network.py:154`): nodes chained with
components. -/
def allComponents (network : Network) : List Component :=
  network.nodes ++ network.components

/-- `OptimizationProblem.Type` (`optimization.py:653`). -/
inductive ProblemType where
  | simulator
  | xpansionMerged
  | xpansionMaster
  | xpansionSubproblem
deriving DecidableEq

/-- `OptimizationProblem._create_variables` (`optimization.py:715`),
projected onto the registry keys it creates: for every component and
declared variable — skipping the variable when the problem is an
`xpansion_master` and the variable's context is operational — one solver
variable is registered per (timestep, scenario) of the variable's own
indexing. -/
def createVariables (problemType : ProblemType)
    (context : OptimizationContext) (network : Network) :
    List TimestepComponentVariableKey :=
  (allComponents network).flatMap (fun component =>
    component.model.variables'.flatMap (fun modelVar =>
      if problemType = ProblemType.xpansionMaster ∧
          modelVar.context = ProblemContext.operational then []
      else
        (getTimeIndices context modelVar.structure').flatMap (fun blockTimestep =>
          (getScenarioIndices context modelVar.structure').map (fun scenario =>
            ⟨component.id, modelVar.name, (blockTimestep : ℤ), scenario⟩))))

/-- Which model field a recorded objective contribution came from. -/
inductive ContributionKind where
  | operational
  | investment
deriving DecidableEq

/-- `OptimizationProblem._create_objectives` (`optimization.py:784`),
projected onto which contributions are passed to `_create_objective`: the
operational contribution of each component unless the problem is an
`xpansion_master`, then the investment contribution unless the problem is
an `xpansion_subproblem` — in each case only when the model declares
one. -/
def createObjectives (problemType : ProblemType) (network : Network) :
    List (String × ContributionKind) :=
  (allComponents network).flatMap (fun component =>
    (if problemType ≠ ProblemType.xpansionMaster ∧
        component.model.objectiveOperationalContribution.isSome then
      [(component.id, ContributionKind.operational)]
    else []) ++
    (if problemType ≠ ProblemType.xpansionSubproblem ∧
        component.model.objectiveInvestmentContribution.isSome then
      [(component.id, ContributionKind.investment)]
    else []))

/-! ## Decomposition export (`export_xpansion_problem`) -/

/-- A problem handed to `export_xpansion_problem`: its name and the lines
of its `export_as_mps()` output. -/
structure XpansionProblemExport where
  name : String
  mps : List String

/-- The regex `COLUMNS\n(( .*\n)*)(BOUNDS|RHS|ENDATA)` of
`export_xpansion_problem` (`optimization.py:917`), applied to the export
as a list of lines: after a `COLUMNS` line, the run of lines starting
with a space, provided the line that follows the run starts the next
section; `none` when no such section exists. -/
def columnsSection : List String → Option (List String)
  | [] => none
  | line :: rest =>
      if line = "COLUMNS" then
        let body := rest.takeWhile (fun l => l.startsWith " ")
        match rest.drop body.length with
        | next :: _ =>
            if next.startsWith "BOUNDS" ∨ next.startsWith "RHS" ∨
                next.startsWith "ENDATA" then some body
            else columnsSection rest
        | [] => columnsSection rest
      else columnsSection rest

/-- `column.lstrip().split()[0]`: the first whitespace-delimited token of
a column line. -/
def firstToken (column : String) : String :=
  (column.trimLeft).takeWhile (fun c => c ≠ ' ')

/-- `"COST" in column`: the column line mentions the objective row. -/
def inObjectiveFunc (column : String) : Bool :=
  (column.splitOn "COST").length > 1

/-- The master scan loop of `export_xpansion_problem`
(`optimization.py:928`): walk the column lines deduplicating repeated
variable names; a first-seen variable appearing in the objective is
recorded as a candidate under index `len(seen_variables) - 1`.  State:
(seen variables, master candidate map, candidate set). -/
def scanMasterColumns :
    List String → List String → List (String × ℕ) → List String →
    List String × List (String × ℕ) × List String
  | [], seen, m, cands => (seen, m, cands)
  | column :: rest, seen, m, cands =>
      let v := firstToken column
      if seen.contains v then scanMasterColumns rest seen m cands
      else
        let seen' := seen ++ [v]
        if inObjectiveFunc column then
          scanMasterColumns rest seen' (m ++ [(v, seen'.length - 1)])
            (cands ++ [v])
        else scanMasterColumns rest seen' m cands

/-- The subproblem scan loop of `export_xpansion_problem`
(`optimization.py:956`): like the master scan but records an index only
for names already known as candidates. -/
def scanSubColumns (candidates : List String) :
    List String → List String → List (String × ℕ) →
    List String × List (String × ℕ)
  | [], seen, m => (seen, m)
  | column :: rest, seen, m =>
      let v := firstToken column
      if seen.contains v then scanSubColumns candidates rest seen m
      else
        let seen' := seen ++ [v]
        if candidates.contains v then
          scanSubColumns candidates rest seen' (m ++ [(v, seen'.length - 1)])
        else scanSubColumns candidates rest seen' m

/-- The subproblem loop of `export_xpansion_problem`
(`optimization.py:947`): per subproblem, extract the columns section
(failure aborts with `False`), scan it, and write the problem's `.mps`
file (a failed write aborts with `False`).  `writeOk` models whether
`write_to_file` succeeds for a given file name; the returned list names
the files written so far. -/
def exportSubproblems (writeOk : String → Bool) (candidates : List String) :
    List XpansionProblemExport → List (String × List (String × ℕ)) →
    List String → Bool × List String × List (String × List (String × ℕ))
  | [], acc, written => (true, written, acc)
  | problem :: rest, acc, written =>
      match columnsSection problem.mps with
      | none => (false, written, acc)
      | some cols =>
          let scanned := scanSubColumns candidates cols [] []
          let acc' := acc ++ [(problem.name, scanned.2)]
          if writeOk (problem.name ++ ".mps") then
            exportSubproblems writeOk candidates rest acc'
              (written ++ [problem.name ++ ".mps"])
          else (false, written, acc')

/-- `export_xpansion_problem` (`optimization.py:895`): fewer than two
problems is an immediate failure; otherwise export the master, scan it
for candidates, export each subproblem, and finally write the
`structure.txt` artifact.  Returns the success flag together with the
names of the files written (file contents are not tracked). -/
def exportXpansionProblem (writeOk : String → Bool)
    (problems : List XpansionProblemExport) : Bool × List String :=
  if problems.length < 2 then (false, [])
  else
    match problems with
    | [] => (false, [])
    | master :: subs =>
        match columnsSection master.mps with
        | none => (false, [])
        | some cols =>
            let scanned := scanMasterColumns cols [] [] []
            if writeOk "master.mps" then
              match exportSubproblems writeOk scanned.2.2 subs
                  [("master", scanned.2.1)] ["master.mps"] with
              | (false, written, _) => (false, written)
              | (true, written, _) =>
                  if writeOk "structure.txt" then
                    (true, written ++ ["structure.txt"])
                  else (false, written)
            else (false, [])

/-! ## Study data (`data.py`) -/

/-- `TimeIndex`, `ScenarioIndex`, `TimeScenarioIndex` dict keys are plain
integers / pairs here.  `AbstractDataStructure` (`data.py:36`) and its
four concrete variants. -/
inductive AbstractDataStructure where
  | constantData (value : ℚ)
  | timeSeriesData (timeSeries : List (ℤ × ℚ))
  | scenarioSeriesData (scenarioSeries : List (ℤ × ℚ))
  | timeScenarioSeriesData (timeScenarioSeries : List ((ℤ × ℤ) × ℚ))
deriving DecidableEq

/-- `get_value` of the four variants (`data.py`): a constant ignores both
indices; the series variants look their dict up (a missing entry raises
`KeyError`, rendered as `none`). -/
def getValue (d : AbstractDataStructure) (timestep scenario : ℤ) :
    Option ℚ :=
  match d with
  | .constantData v => some v
  | .timeSeriesData ts => (ts.find? (fun p => p.1 = timestep)).map (·.2)
  | .scenarioSeriesData ss => (ss.find? (fun p => p.1 = scenario)).map (·.2)
  | .timeScenarioSeriesData tss =>
      (tss.find? (fun p => p.1 = (timestep, scenario))).map (·.2)

/-- `check_requirement` of the four variants (`data.py:58,77,97,117`):
`ConstantData` accepts every (time, scenario) requirement; `TimeSeriesData`
requires `time`; `ScenarioSeriesData` requires `scenario`;
`TimeScenarioSeriesData` requires both. -/
def checkRequirement (d : AbstractDataStructure)
    (time scenario : Bool) : Bool :=
  match d with
  | .constantData _ => true
  | .timeSeriesData _ => time
  | .scenarioSeriesData _ => scenario
  | .timeScenarioSeriesData _ => time && scenario

/-- `ComponentParameterIndex` (`data.py:124`). -/
structure ComponentParameterIndex where
  componentId : String
  parameterName : String
deriving DecidableEq

/-- `DataBase` (`data.py:130`): its `_data` dict as an association list. -/
structure DataBase where
  data : List (ComponentParameterIndex × AbstractDataStructure)

/-- `DataBase.get_data` (`data.py:143`): dict lookup; a missing entry
raises `KeyError`, rendered as `none`. -/
def getData (db : DataBase) (componentId parameterName : String) :
    Option AbstractDataStructure :=
  (db.data.find? (fun p => p.1 = ⟨componentId, parameterName⟩)).map (·.2)

/-- The errors `DataBase.requirements_consistency` can raise: the
`KeyError` of `get_data` for a missing entry, and the `ValueError` for a
requirement that is not met — each carrying the component and parameter
it was raised for. -/
inductive ConsistencyError where
  | missingData (componentId parameterName : String)
  | requirementNotMet (componentId parameterName : String)
deriving DecidableEq

/-- The inner parameter loop of `DataBase.requirements_consistency`
(`data.py:161`): fetch each declared parameter's data and check it
against the parameter's declared indexing structure. -/
def checkComponentParams (db : DataBase) (componentId : String) :
    List ParameterSpec → Except ConsistencyError Unit
  | [] => .ok ()
  | param :: rest =>
      match getData db componentId param.name with
      | none => .error (.missingData componentId param.name)
      | some d =>
          if checkRequirement d param.structure'.time
              param.structure'.scenario then
            checkComponentParams db componentId rest
          else .error (.requirementNotMet componentId param.name)

/-- The component loop of `DataBase.requirements_consistency`
(`data.py:159`); it iterates `network.components` (not
`all_components`). -/
def requirementsConsistencyGo (db : DataBase) :
    List Component → Except ConsistencyError Unit
  | [] => .ok ()
  | component :: rest =>
      match checkComponentParams db component.id
          component.model.parameters with
      | .ok _ => requirementsConsistencyGo db rest
      | .error e => .error e

/-- `DataBase.requirements_consistency` (`data.py:159`). -/
def requirementsConsistency (db : DataBase) (network : Network) :
    Except ConsistencyError Unit :=
  requirementsConsistencyGo db network.components

/-- The accumulated constraint name after processing instances 0 through
`k` of the loop of `make_constraint`, starting from `name` at instance
`i0`. -/
def cumulName (name : String) (i0 : ℕ) : ℕ → String
  | 0 => name ++ "_" ++ toString i0
  | k + 1 => cumulName name i0 k ++ "_" ++ toString (i0 + (k + 1))

/-! ## Concrete inputs for witnesses and counterexamples -/

/-- The concrete database of the C10 witness: one time-series entry. -/
def dbC10 : DataBase :=
  ⟨[(⟨"c", "p"⟩, AbstractDataStructure.timeSeriesData [(0, 1)])]⟩

/-- The concrete network of the C10 witness: one component declaring the
parameter "p" as constant (time and scenario invariant), which the
time-series data fails to satisfy. -/
def netC10 : Network :=
  ⟨[], [⟨⟨[], [⟨"p", ⟨false, false⟩⟩], none, none⟩, "c"⟩]⟩

/-- A concrete expression for the C9 witness. -/
def exprC9 : LinearExpression :=
  ⟨[⟨10, "c", "x", none, none, none, ⟨true, true⟩⟩], 1⟩

/-- The concrete network of the C4 counterexample: a single component
declaring one investment-context variable. -/
def netC4 : Network :=
  ⟨[], [⟨⟨[⟨"candidate", ⟨false, false⟩, ProblemContext.investment⟩], [],
          none, none⟩, "cand"⟩]⟩

/-- The concrete context of the C4 counterexample. -/
def ctxC4 : OptimizationContext :=
  ⟨[0], 1, BlockBorderManagement.CYCLE, fun _ => none⟩

/-- The key of the investment variable of `netC4`. -/
def keyC4 : TimestepComponentVariableKey := ⟨"cand", "candidate", 0, 0⟩

/-- The concrete context of the C3 witness: one timestep, two scenarios,
a registry handing scenario `s` the handle `100 + s`. -/
def ctxC3 : OptimizationContext :=
  ⟨[0], 2, BlockBorderManagement.CYCLE, fun k => some (100 + k.scenario)⟩

/-- The Expectation-tagged objective term of the C3 witness. -/
def termC3 : Term :=
  ⟨3, "c", "x", none, none, some ScenarioOperator.expectation,
   ⟨true, true⟩⟩

/-- The plain (no scenario-operator) objective term of the C3 witness. -/
def termC3plain : Term := ⟨3, "c", "x", none, none, none, ⟨true, true⟩⟩

/-- The per-scenario handles of the C3 witness. -/
def hC3 : ℕ → ℕ := fun s => 100 + s

/-- The concrete context of the C1 counterexample and witness: a
two-timestep block with every key registered to handle 7. -/
def ctxC1 : OptimizationContext :=
  ⟨[0, 1], 1, BlockBorderManagement.CYCLE, fun _ => some 7⟩

/-- The rolling-shift term of the C1 constraint body: a shift over the
two offsets 0 and 1, hence two instances. -/
def termC1 : Term :=
  ⟨1, "cmp", "x", some (TimeOperator.timeShift [0, 1]), none, none,
   ⟨true, true⟩⟩

/-- The concrete constraint data of the C1 counterexample. -/
def dataC1 : ConstraintData := ⟨"c", 0, 0, ⟨[termC1], 0⟩⟩

/-- The concrete context of the C2 witness: a two-timestep block. -/
def ctxC2 : OptimizationContext :=
  ⟨[0, 1], 1, BlockBorderManagement.CYCLE, fun k => some k.scenario⟩

/-- A shift-under-sum term for the C2 witness. -/
def termC2shift : Term :=
  ⟨1, "c", "x", some (TimeOperator.timeShift [1, 2]),
   some (TimeAggregator.timeSum false), none, ⟨true, true⟩⟩

/-- A shift term without aggregator for the C2 witness. -/
def termC2shiftNoAgg : Term :=
  ⟨1, "c", "x", some (TimeOperator.timeShift [1, 2]), none, none,
   ⟨true, true⟩⟩

/-- An operator-free term for the C2 witness. -/
def termC2none : Term := ⟨1, "c", "x", none, none, none, ⟨true, true⟩⟩

/-! ## Association-list and dictionary lemmas -/

theorem dictFind_dictInsert_self (l : List (TimestepComponentVariableKey × ℕ))
    (k : TimestepComponentVariableKey) (v : ℕ) :
    dictFind (dictInsert l k v) k = some v := by
  induction l with
  | nil => simp [dictInsert, dictFind]
  | cons p rest ih =>
      obtain ⟨k', v'⟩ := p
      by_cases h : k' = k
      · simp [dictInsert, dictFind, h]
      · simpa [dictInsert, dictFind, h] using ih

theorem getCoeff_setCoeff_self (l : List (ℕ × ℚ)) (v : ℕ) (c : ℚ) :
    getCoeff (setCoeff l v c) v = c := by
  induction l with
  | nil => simp [setCoeff, getCoeff]
  | cons p rest ih =>
      obtain ⟨u, d⟩ := p
      by_cases h : u = v
      · simp [setCoeff, getCoeff, h]
      · simpa [setCoeff, getCoeff, h] using ih

theorem getCoeff_setCoeff_ne (l : List (ℕ × ℚ)) (v u : ℕ) (c : ℚ)
    (h : u ≠ v) : getCoeff (setCoeff l v c) u = getCoeff l u := by
  induction l with
  | nil => simp [setCoeff, getCoeff, Ne.symm h]
  | cons p rest ih =>
      obtain ⟨u', d⟩ := p
      by_cases h' : u' = v
      · subst h'
        simp [setCoeff, getCoeff, Ne.symm h]
      · by_cases h'' : u' = u
        · subst h''
          simp [setCoeff, getCoeff, h']
        · simp [setCoeff, getCoeff, h', h'', ih]

/-! ## Claim C5 -/

/-- C5: for every variable whose indexing structure has `time = False`,
`get_component_variable` returns, for any queried timestep, exactly the
handle registered at canonical timestep index 0 — in particular the same
handle for all queried timesteps (stated under the implemented CYCLE
border policy over a nonempty block, where the lookup does return). -/
theorem C5_time_invariant_lookup (context : OptimizationContext)
    (blockTimestep : ℤ) (scenario : ℕ) (componentId variableName : String)
    (st : IndexingStructure)
    (hb : context.borderManagement = BlockBorderManagement.CYCLE)
    (hL : 0 < blockLength context) (ht : st.time = false) :
    getComponentVariable context blockTimestep scenario componentId
        variableName st =
      context.componentVariables
        ⟨componentId, variableName, 0,
         if st.scenario = false then 0 else scenario⟩ ∧
    getComponentVariable context blockTimestep scenario componentId
        variableName st =
      getComponentVariable context 0 scenario componentId variableName st := by
  have hL' : blockLength context ≠ 0 := Nat.pos_iff_ne_zero.mp hL
  constructor <;>
    simp [getComponentVariable, manageBorderTimesteps, hb, ht, hL']

/-- C5 witness: concrete evaluation at timestep 7 of a time-invariant
variable over a one-timestep block. -/
theorem C5_time_invariant_lookup_witness :
    getComponentVariable
        ⟨[5], 1, BlockBorderManagement.CYCLE,
         fun k => if k = ⟨"c", "x", 0, 0⟩ then some 42 else none⟩
        7 0 "c" "x" ⟨false, true⟩ =
      OptimizationContext.componentVariables
        ⟨[5], 1, BlockBorderManagement.CYCLE,
         fun k => if k = ⟨"c", "x", 0, 0⟩ then some 42 else none⟩
        ⟨"c", "x", 0,
         if (⟨false, true⟩ : IndexingStructure).scenario = false then 0
         else 0⟩ ∧
    getComponentVariable
        ⟨[5], 1, BlockBorderManagement.CYCLE,
         fun k => if k = ⟨"c", "x", 0, 0⟩ then some 42 else none⟩
        7 0 "c" "x" ⟨false, true⟩ =
      getComponentVariable
        ⟨[5], 1, BlockBorderManagement.CYCLE,
         fun k => if k = ⟨"c", "x", 0, 0⟩ then some 42 else none⟩
        0 0 "c" "x" ⟨false, true⟩ :=
  C5_time_invariant_lookup _ 7 0 "c" "x" ⟨false, true⟩ rfl (by decide) rfl

/-! ## Claim C6 -/

/-- C6: under the CYCLE border policy, for every non-negative `k`, looking
a time-varying variable up at timestep `block_length + k` returns the
same solver-variable handle as looking it up at timestep `k`: the wrap is
modulo the block length. -/
theorem C6_cycle_wraps_modulo_block (context : OptimizationContext)
    (k : ℕ) (scenario : ℕ) (componentId variableName : String)
    (st : IndexingStructure)
    (hb : context.borderManagement = BlockBorderManagement.CYCLE)
    (hL : 0 < blockLength context) (_ht : st.time = true) :
    getComponentVariable context ((blockLength context : ℤ) + k) scenario
        componentId variableName st =
      getComponentVariable context (k : ℤ) scenario componentId
        variableName st := by
  have hmod : ((blockLength context : ℤ) + k) % (blockLength context : ℤ) =
      (k : ℤ) % (blockLength context : ℤ) := by
    have h1 : ((blockLength context : ℤ) + k) =
        (k : ℤ) + (blockLength context : ℤ) * 1 := by ring
    rw [h1, Int.add_mul_emod_self_left]
  simp [getComponentVariable, manageBorderTimesteps, hb,
    Nat.pos_iff_ne_zero.mp hL, hmod]

/-- C6 witness: over a block of length 3, timestep 3 + 1 resolves exactly
as timestep 1. -/
theorem C6_cycle_wraps_modulo_block_witness :
    getComponentVariable
        ⟨[10, 11, 12], 1, BlockBorderManagement.CYCLE,
         fun k => some (100 + k.scenario)⟩
        ((blockLength ⟨[10, 11, 12], 1, BlockBorderManagement.CYCLE,
            fun k => some (100 + k.scenario)⟩ : ℤ) + (1 : ℕ))
        0 "c" "x" ⟨true, true⟩ =
      getComponentVariable
        ⟨[10, 11, 12], 1, BlockBorderManagement.CYCLE,
         fun k => some (100 + k.scenario)⟩
        ((1 : ℕ) : ℤ) 0 "c" "x" ⟨true, true⟩ :=
  C6_cycle_wraps_modulo_block _ 1 0 "c" "x" ⟨true, true⟩ rfl (by decide) rfl

/-! ## Claim C7 -/

/-- C7 counterexample: registering a second solver variable under an
already-present key does not fail — the assignment takes effect and the
second handle replaces the first (`register_component_variable` has no
duplicate guard). -/
theorem C7_reregistration_overwrites_counterexample :
    dictFind
        (registerComponentVariable
          (registerComponentVariable [] 0 0 "c" "x" 1) 0 0 "c" "x" 2)
        ⟨"c", "x", 0, 0⟩ = some 2 ∧
    dictFind
        (registerComponentVariable
          (registerComponentVariable [] 0 0 "c" "x" 1) 0 0 "c" "x" 2)
        ⟨"c", "x", 0, 0⟩ ≠ some 1 := by
  constructor <;> decide

/-- C7 amended: variable registration is last-write-wins, not write-once:
registering a second solver variable under a key already present in the
registry silently replaces the first handle, for every registry state and
key. -/
theorem C7_reregistration_overwrites
    (componentVariables : List (TimestepComponentVariableKey × ℕ))
    (blockTimestep : ℤ) (scenario : ℕ) (componentId variableName : String)
    (handle1 handle2 : ℕ) :
    dictFind
        (registerComponentVariable
          (registerComponentVariable componentVariables blockTimestep
            scenario componentId variableName handle1)
          blockTimestep scenario componentId variableName handle2)
        ⟨componentId, variableName, blockTimestep, scenario⟩ =
      some handle2 :=
  dictFind_dictInsert_self _ _ _

/-! ## Claim C8 -/

/-- C8: when `export_xpansion_problem` is supplied fewer than two problems
(less than one master plus one subproblem), it returns failure and writes
no file at all. -/
theorem C8_export_requires_two_problems (writeOk : String → Bool)
    (problems : List XpansionProblemExport)
    (h : problems.length < 2) :
    exportXpansionProblem writeOk problems = (false, []) := by
  simp [exportXpansionProblem, h]

/-- C8 witness: a single supplied problem fails and writes nothing. -/
theorem C8_export_requires_two_problems_witness :
    exportXpansionProblem (fun _ => true) [⟨"master", ["COLUMNS"]⟩] =
      (false, []) :=
  C8_export_requires_two_problems _ _ (by decide)

/-! ## Claim C10 -/

theorem checkComponentParams_requirement_error (db : DataBase)
    (componentId : String) :
    ∀ (params : List ParameterSpec) (c p : String),
    checkComponentParams db componentId params =
      .error (.requirementNotMet c p) →
    ∃ d time scenario, getData db c p = some d ∧
      checkRequirement d time scenario = false := by
  intro params
  induction params with
  | nil => intro c p h; simp [checkComponentParams] at h
  | cons param rest ih =>
      intro c p h
      rw [checkComponentParams] at h
      split at h
      · simp at h
      · rename_i d hd
        split at h
        · exact ih c p h
        · rename_i hc
          simp only [Except.error.injEq,
            ConsistencyError.requirementNotMet.injEq] at h
          refine ⟨d, param.structure'.time, param.structure'.scenario,
            ?_, ?_⟩
          · rw [← h.1, ← h.2]; exact hd
          · simpa using hc

theorem requirementsConsistencyGo_requirement_error (db : DataBase) :
    ∀ (components : List Component) (c p : String),
    requirementsConsistencyGo db components =
      .error (.requirementNotMet c p) →
    ∃ d time scenario, getData db c p = some d ∧
      checkRequirement d time scenario = false := by
  intro components
  induction components with
  | nil => intro c p h; simp [requirementsConsistencyGo] at h
  | cons component rest ih =>
      intro c p h
      rw [requirementsConsistencyGo] at h
      cases hcc : checkComponentParams db component.id
          component.model.parameters with
      | ok u => rw [hcc] at h; exact ih c p h
      | error e =>
          rw [hcc] at h
          simp only [Except.error.injEq] at h
          subst h
          exact checkComponentParams_requirement_error db component.id _ c p hcc

/-- C10: `ConstantData.check_requirement` returns `True` for every
(time, scenario) combination, so `DataBase.requirements_consistency`
never raises its requirement error on account of a parameter whose
database entry is `ConstantData`, whatever indexing structure the model
declares for it: whenever the requirement error is raised for
(component, parameter), that parameter's data is not constant. -/
theorem C10_constant_data_always_consistent :
    (∀ (value : ℚ) (time scenario : Bool),
       checkRequirement (AbstractDataStructure.constantData value) time
         scenario = true) ∧
    (∀ (db : DataBase) (network : Network) (c p : String),
       requirementsConsistency db network =
         .error (.requirementNotMet c p) →
       ∀ value : ℚ,
         getData db c p ≠ some (AbstractDataStructure.constantData value)) := by
  constructor
  · intro value time scenario
    rfl
  · intro db network c p h value heq
    obtain ⟨d, time, scenario, hget, hfalse⟩ :=
      requirementsConsistencyGo_requirement_error db network.components c p h
    rw [heq] at hget
    obtain rfl : AbstractDataStructure.constantData value = d :=
      Option.some.inj hget
    simp [checkRequirement] at hfalse


/-- C10 witness: constant data satisfies a time- and scenario-varying
requirement, and a concrete requirement error is never raised for a
constant entry. -/
theorem C10_constant_data_always_consistent_witness :
    checkRequirement (AbstractDataStructure.constantData 5) true false =
      true ∧
    getData dbC10 "c" "p" ≠
      some (AbstractDataStructure.constantData 0) :=
  ⟨C10_constant_data_always_consistent.1 5 true false,
   C10_constant_data_always_consistent.2 dbC10 netC10 "c" "p" rfl 0⟩

/-! ## Claim C9 -/

theorem termKey_update_coefficient (t : Term) (c : ℚ) :
    termKey { t with coefficient := c } = termKey t := rfl

theorem find?_key_map_neg (l : List Term) (k : TermKey) :
    (l.map (fun t => { t with coefficient := -t.coefficient })).find?
        (fun t => termKey t = k) =
      (l.find? (fun t => termKey t = k)).map
        (fun t => { t with coefficient := -t.coefficient }) := by
  induction l with
  | nil => rfl
  | cons t rest ih =>
      by_cases h : termKey t = k
      · simp [List.find?_cons, termKey_update_coefficient, h]
      · simp [List.find?_cons, termKey_update_coefficient, h, ih]

theorem coeffOf_negExpr (a : LinearExpression) (k : TermKey) :
    coeffOf (negExpr a) k = - coeffOf a k := by
  simp only [coeffOf, negExpr, find?_key_map_neg]
  cases a.terms.find? (fun t => termKey t = k) with
  | none => simp
  | some t => simp

theorem addExpr_negExpr_eq_zero (a : LinearExpression) :
    addExpr a (negExpr a) = ⟨[], 0⟩ := by
  have hfilter : (negExpr a).terms.filter
      (fun t => ¬ a.terms.any (fun u => termKey u = termKey t)) = [] := by
    rw [List.filter_eq_nil_iff]
    intro t ht
    obtain ⟨u, hu, rfl⟩ := List.mem_map.mp ht
    simp only [decide_not, Bool.not_eq_true', Bool.not_eq_false,
      decide_eq_true_eq]
    exact List.any_eq_true.mpr
      ⟨u, hu, by simp [termKey_update_coefficient]⟩
  have hmerged : (a.terms.map
      (fun t => { t with coefficient := coeffOf a (termKey t) + coeffOf (negExpr a) (termKey t) })).filter
      (fun t => t.coefficient ≠ 0) = [] := by
    rw [List.filter_eq_nil_iff]
    intro t ht
    obtain ⟨u, _, rfl⟩ := List.mem_map.mp ht
    simp [coeffOf_negExpr]
  simp only [addExpr, hfilter, List.append_nil, hmerged]
  simp [negExpr]

theorem C9_no_zero_after_filter {t : Term} {l : List Term}
    (h : t ∈ l.filter (fun t => t.coefficient ≠ 0)) : t.coefficient ≠ 0 := by
  have := (List.mem_filter.mp h).2
  simpa using this

/-- C9: `a + (-a)` is the zero `LinearExpression` (empty term map,
constant 0) for every `a`, and the term map resulting from any
`LinearExpression` operation (construction, addition, subtraction,
negation of a well-formed operand, multiplication, division) contains no
term whose coefficient is exactly zero. -/
theorem C9_linear_expression_group_and_pruning :
    (∀ a : LinearExpression, addExpr a (negExpr a) = ⟨[], 0⟩) ∧
    (∀ (ts : List Term) (c : ℚ) (t : Term),
       t ∈ (mkLinearExpression ts c).terms → t.coefficient ≠ 0) ∧
    (∀ (a b : LinearExpression) (t : Term),
       t ∈ (addExpr a b).terms → t.coefficient ≠ 0) ∧
    (∀ (a b : LinearExpression) (t : Term),
       t ∈ (subExpr a b).terms → t.coefficient ≠ 0) ∧
    (∀ (a : LinearExpression),
       (∀ u ∈ a.terms, u.coefficient ≠ 0) →
       ∀ t ∈ (negExpr a).terms, t.coefficient ≠ 0) ∧
    (∀ (a b e : LinearExpression) (t : Term),
       mulExpr a b = .ok e → t ∈ e.terms → t.coefficient ≠ 0) ∧
    (∀ (a b e : LinearExpression) (t : Term),
       divExpr a b = .ok e → t ∈ e.terms → t.coefficient ≠ 0) := by
  refine ⟨addExpr_negExpr_eq_zero, ?_, ?_, ?_, ?_, ?_, ?_⟩
  · intro ts c t ht
    exact C9_no_zero_after_filter ht
  · intro a b t ht
    exact C9_no_zero_after_filter ht
  · intro a b t ht
    exact C9_no_zero_after_filter ht
  · intro a ha t ht
    obtain ⟨u, hu, rfl⟩ := List.mem_map.mp ht
    simpa using ha u hu
  · intro a b e t hok ht
    rw [mulExpr] at hok
    split at hok
    · exact absurd hok (by simp)
    · obtain rfl := Except.ok.inj hok
      exact C9_no_zero_after_filter ht
  · intro a b e t hok ht
    rw [divExpr] at hok
    split at hok
    · exact absurd hok (by simp)
    · split at hok
      · exact absurd hok (by simp)
      · obtain rfl := Except.ok.inj hok
        exact C9_no_zero_after_filter ht


/-! ## Claim C1 -/

theorem makeConstraintGo_length (context : OptimizationContext)
    (t : ℤ) (s : ℕ) (data : ConstraintData) (instances : ℕ) :
    ∀ (remaining : ℕ) (name : String) (rows : List SolverRow),
    makeConstraintGo context t s data instances remaining name =
      some rows →
    rows.length = remaining := by
  intro remaining
  induction remaining with
  | zero =>
      intro name rows h
      simp only [makeConstraintGo] at h
      obtain rfl := Option.some.inj h
      rfl
  | succ r ih =>
      intro name rows h
      simp only [makeConstraintGo] at h
      split at h
      · exact Option.noConfusion h
      · rename_i row0 hmr
        obtain ⟨rest, hrest, rfl⟩ := Option.map_eq_some'.mp h
        simp [ih _ rest hrest]

theorem makeConstraintGo_bounds (context : OptimizationContext)
    (t : ℤ) (s : ℕ) (data : ConstraintData) (instances : ℕ) :
    ∀ (remaining : ℕ) (name : String) (rows : List SolverRow),
    makeConstraintGo context t s data instances remaining name =
      some rows →
    ∀ row ∈ rows,
      row.lowerBound = data.lowerBound - data.expression.constant ∧
      row.upperBound = data.upperBound - data.expression.constant := by
  intro remaining
  induction remaining with
  | zero =>
      intro name rows h row hrow
      simp only [makeConstraintGo] at h
      obtain rfl := Option.some.inj h
      exact absurd hrow (List.not_mem_nil row)
  | succ r ih =>
      intro name rows h row hrow
      simp only [makeConstraintGo] at h
      split at h
      · exact Option.noConfusion h
      · rename_i row0 hmr
        obtain ⟨rest, hrest, rfl⟩ := Option.map_eq_some'.mp h
        rcases List.mem_cons.mp hrow with rfl | hrow'
        · obtain ⟨coeffs, _, rfl⟩ := Option.map_eq_some'.mp hmr
          exact ⟨rfl, rfl⟩
        · exact ih _ rest hrest row hrow'

theorem cumulName_shift (name : String) (i0 : ℕ) :
    ∀ k, cumulName (name ++ "_" ++ toString i0) (i0 + 1) k =
      cumulName name i0 (k + 1) := by
  intro k
  induction k with
  | zero => rfl
  | succ k ih =>
      show cumulName (name ++ "_" ++ toString i0) (i0 + 1) (k + 1) =
        cumulName name i0 (k + 2)
      rw [cumulName, ih]
      have harith : i0 + 1 + (k + 1) = i0 + (k + 2) := by omega
      rw [harith]
      rfl

theorem makeConstraintGo_names (context : OptimizationContext)
    (t : ℤ) (s : ℕ) (data : ConstraintData) (instances : ℕ)
    (hinst : 1 < instances) :
    ∀ (remaining : ℕ), remaining ≤ instances →
    ∀ (name : String) (rows : List SolverRow) (k : ℕ) (row : SolverRow),
    makeConstraintGo context t s data instances remaining name =
      some rows →
    rows.get? k = some row →
    row.name = cumulName name (instances - remaining) k := by
  intro remaining
  induction remaining with
  | zero =>
      intro _ name rows k row h hk
      simp only [makeConstraintGo] at h
      obtain rfl := Option.some.inj h
      exact Option.noConfusion hk
  | succ r ih =>
      intro hle name rows k row h hk
      simp only [makeConstraintGo] at h
      rw [if_pos hinst] at h
      split at h
      · exact Option.noConfusion h
      · rename_i row0 hmr
        obtain ⟨rest, hrest, rfl⟩ := Option.map_eq_some'.mp h
        cases k with
        | zero =>
            obtain rfl := Option.some.inj hk
            obtain ⟨coeffs, _, rfl⟩ := Option.map_eq_some'.mp hmr
            rfl
        | succ k' =>
            have hk' : rest.get? k' = some row := hk
            have hIH := ih (by omega)
              (name ++ "_" ++ toString (instances - (r + 1))) rest k' row
              hrest hk'
            rw [hIH]
            have h1 : instances - r = (instances - (r + 1)) + 1 := by omega
            rw [h1, cumulName_shift]

theorem mapM_option_map_eq {α β γ : Type} (f : α → Option β) (g : β → γ)
    (h : α → γ) (hfg : ∀ a b, f a = some b → g b = h a) :
    ∀ (l : List α) (out : List β), l.mapM f = some out →
    out.map g = l.map h := by
  intro l
  induction l with
  | nil =>
      intro out hout
      simp only [List.mapM_nil] at hout
      obtain rfl := Option.some.inj hout
      rfl
  | cons a l' ih =>
      intro out hout
      rw [List.mapM_cons] at hout
      cases hfa : f a with
      | none => rw [hfa] at hout; exact Option.noConfusion hout
      | some b =>
          rw [hfa] at hout
          simp only [Option.bind_eq_bind, Option.some_bind] at hout
          cases hbs : l'.mapM f with
          | none => rw [hbs] at hout; exact Option.noConfusion hout
          | some bs =>
              rw [hbs] at hout
              simp only [Option.some_bind, Option.pure_def] at hout
              obtain rfl := Option.some.inj hout
              simp only [List.map_cons]
              rw [hfg a b hfa, ih bs hbs]

/-- C1 (amended): for every declared constraint, when the linearization
of its body at the canonical index yields `N = number_of_instances`, each
(timestep, scenario) pair of the iteration policy materializes exactly
`N` physical solver rows, and each row's bounds are (resolved lower bound
minus the expression's constant, resolved upper bound minus the
expression's constant).  When `N > 1`, the rows carry accumulated
suffixes: the row of instance `k` is named with the constraint name
followed by the suffixes of instances 0 through `k` (name_0, name_0_1,
…), because the loop keeps appending to the same name variable — not a
per-row single suffix. -/
theorem C1_constraint_materialization :
    (∀ (context : OptimizationContext) (t : ℤ) (s : ℕ)
       (data : ConstraintData) (instances : ℕ) (rows : List SolverRow),
       makeConstraint context t s data instances = some rows →
       rows.length = instances) ∧
    (∀ (context : OptimizationContext) (t : ℤ) (s : ℕ)
       (data : ConstraintData) (instances : ℕ) (rows : List SolverRow),
       makeConstraint context t s data instances = some rows →
       ∀ row ∈ rows,
         row.lowerBound = data.lowerBound - data.expression.constant ∧
         row.upperBound = data.upperBound - data.expression.constant) ∧
    (∀ (context : OptimizationContext) (t : ℤ) (s : ℕ)
       (data : ConstraintData) (instances : ℕ) (rows : List SolverRow)
       (k : ℕ) (row : SolverRow),
       1 < instances →
       makeConstraint context t s data instances = some rows →
       rows.get? k = some row →
       row.name = cumulName data.name 0 k) ∧
    (∀ (context : OptimizationContext) (constraintName : String)
       (constraintIndexing : IndexingStructure)
       (linearize : ℕ → ℕ → LinearExpression)
       (lowerBoundAt upperBoundAt : ℕ → ℕ → ℚ)
       (out : List (ℕ × ℕ × List SolverRow)),
       createConstraint context constraintName constraintIndexing
         linearize lowerBoundAt upperBoundAt = some out →
       out.map (fun e => (e.1, e.2.1, e.2.2.length)) =
         (getTimeIndices context constraintIndexing).flatMap
           (fun blockTimestep =>
             (getScenarioIndices context constraintIndexing).map
               (fun scenario =>
                 (blockTimestep, scenario,
                  numberOfInstances (linearize 0 0))))) := by
  refine ⟨?_, ?_, ?_, ?_⟩
  · intro context t s data instances rows h
    exact makeConstraintGo_length context t s data instances instances
      data.name rows h
  · intro context t s data instances rows h
    exact makeConstraintGo_bounds context t s data instances instances
      data.name rows h
  · intro context t s data instances rows k row hinst h hk
    have := makeConstraintGo_names context t s data instances hinst
      instances (Nat.le_refl instances) data.name rows k row h hk
    rwa [Nat.sub_self] at this
  · intro context constraintName constraintIndexing linearize
      lowerBoundAt upperBoundAt out hout
    simp only [createConstraint] at hout
    obtain ⟨nested, hnested, rfl⟩ := Option.map_eq_some'.mp hout
    rw [List.map_flatten, List.flatMap_def]
    congr 1
    refine mapM_option_map_eq _ _ _ ?_ _ nested hnested
    intro blockTimestep lst hlst
    refine mapM_option_map_eq _ _ _ ?_ _ lst hlst
    intro scenario b hb
    obtain ⟨rows, hrows, rfl⟩ := Option.map_eq_some'.mp hb
    have hlen : rows.length = numberOfInstances (linearize 0 0) :=
      makeConstraintGo_length context (blockTimestep : ℤ) scenario _ _ _
        _ rows hrows
    simp [hlen]

/-- C1 counterexample: a constraint body with a rolling shift over the
two offsets [0, 1] yields two rows, but the second row is named
`"c_0_1"` (the suffixes accumulate across the loop iterations of
`make_constraint`), not `"c_1"` as the claim's per-row single suffix
requires. -/
theorem C1_cumulative_suffix_counterexample :
    numberOfInstances dataC1.expression = 2 ∧
    ∃ rows, makeConstraint ctxC1 0 0 dataC1 2 = some rows ∧
      rows.map SolverRow.name = ["c_0", "c_0_1"] ∧
      ¬ rows.map SolverRow.name = ["c_0", "c_1"] :=
  ⟨rfl, _, rfl, rfl, by decide⟩

/-- C1 witness: count, bounds, accumulated names and the iteration-policy
row counts evaluated on the concrete constraint `dataC1`. -/
theorem C1_constraint_materialization_witness :
    (∃ rows, makeConstraint ctxC1 0 0 dataC1 2 = some rows ∧
       rows.length = 2 ∧
       (∀ row ∈ rows,
          row.lowerBound = dataC1.lowerBound -
            dataC1.expression.constant ∧
          row.upperBound = dataC1.upperBound -
            dataC1.expression.constant) ∧
       ∃ row, rows.get? 1 = some row ∧
         row.name = cumulName dataC1.name 0 1) ∧
    ∃ out, createConstraint ctxC1 "c" ⟨true, false⟩
        (fun _ _ => dataC1.expression) (fun _ _ => 0) (fun _ _ => 0) =
        some out ∧
      out.map (fun e => (e.1, e.2.1, e.2.2.length)) =
        (getTimeIndices ctxC1 ⟨true, false⟩).flatMap
          (fun blockTimestep =>
            (getScenarioIndices ctxC1 ⟨true, false⟩).map
              (fun scenario =>
                (blockTimestep, scenario,
                 numberOfInstances dataC1.expression))) :=
  ⟨⟨_, rfl,
    C1_constraint_materialization.1 ctxC1 0 0 dataC1 2 _ rfl,
    C1_constraint_materialization.2.1 ctxC1 0 0 dataC1 2 _ rfl,
    _, rfl,
    C1_constraint_materialization.2.2.1 ctxC1 0 0 dataC1 2 _ 1 _
      (by decide) rfl rfl⟩,
   _, rfl,
   C1_constraint_materialization.2.2.2 ctxC1 "c" ⟨true, false⟩
     (fun _ _ => dataC1.expression) (fun _ _ => 0) (fun _ _ => 0) _ rfl⟩

/-! ## Claim C2 -/

theorem range_add_emod_eq_rotate (L : ℕ) (hL : 0 < L) (t : ℤ) :
    (List.range L).map (fun i : ℕ => (t + (i : ℤ)) % (L : ℤ)) =
      ((List.range L).rotate (t % (L : ℤ)).toNat).map
        (fun i : ℕ => (i : ℤ)) := by
  have hLZ : (L : ℤ) ≠ 0 := by
    exact_mod_cast Nat.pos_iff_ne_zero.mp hL
  have hmodnn : 0 ≤ t % (L : ℤ) := Int.emod_nonneg t hLZ
  apply List.ext_getElem
  · simp [List.length_rotate]
  · intro i h1 h2
    have hiL : i < L := by simpa using h1
    simp only [List.getElem_map, List.getElem_rotate, List.length_range,
      List.getElem_range]
    rw [Int.natCast_mod]
    push_cast
    rw [Int.toNat_of_nonneg hmodnn]
    rw [add_comm ((i : ℤ)) (t % (L : ℤ)), Int.emod_add_emod]

theorem manageBorder_block_cover (context : OptimizationContext) (t : ℤ)
    (hb : context.borderManagement = BlockBorderManagement.CYCLE)
    (hL : 0 < blockLength context) :
    ((List.range (blockLength context)).map
        (fun i : ℕ => manageBorderTimesteps context (t + (i : ℤ)))).Perm
      ((List.range (blockLength context)).map
        (fun i : ℕ => some ((i : ℕ) : ℤ))) := by
  have h1 : (fun i : ℕ => manageBorderTimesteps context (t + (i : ℤ))) =
      fun i : ℕ => some ((t + (i : ℤ)) % (blockLength context : ℤ)) := by
    funext i
    simp [manageBorderTimesteps, hb, Nat.pos_iff_ne_zero.mp hL]
  have e1 : (List.range (blockLength context)).map
      (fun i : ℕ => some ((t + (i : ℤ)) % (blockLength context : ℤ))) =
      ((List.range (blockLength context)).map
        (fun i : ℕ => (t + (i : ℤ)) % (blockLength context : ℤ))).map some := by
    rw [List.map_map]; rfl
  have e2 : (List.range (blockLength context)).map
      (fun i : ℕ => some ((i : ℕ) : ℤ)) =
      ((List.range (blockLength context)).map
        (fun i : ℕ => ((i : ℕ) : ℤ))).map some := by
    rw [List.map_map]; rfl
  rw [h1, e1, e2, range_add_emod_eq_rotate (blockLength context) hL t]
  exact ((List.rotate_perm _ _).map _).map _

/-- C2: the term-to-solver-variable resolution realizes the 4.5 table —
with a Sum aggregator, Shift(offsets) yields one lookup per offset at
`timestep + offset`, Evaluation(indices) one lookup per absolute index,
and no operator one lookup per timestep of the whole block (under CYCLE
the looked-up border-wrapped timesteps cover each block timestep exactly
once); without aggregator, Shift/Evaluation yield the single lookup at
`timestep + offsets[instance]` / `indices[instance]`, and no operator the
single lookup at `timestep`.  Every lookup passes the timestep through
the border policy before the registry access, and forces the scenario to
0 when the variable is scenario-invariant. -/
theorem C2_term_resolution_table :
    (∀ (context : OptimizationContext) (term : Term) (t : ℤ)
       (s inst : ℕ) (agg : TimeAggregator) (ids : List ℤ),
       term.timeAggregator = some agg →
       term.timeOperator = some (TimeOperator.timeShift ids) →
       getSolverVars term context t s inst =
         ids.map (fun o => getComponentVariable context (t + o) s
           term.componentId term.variableName term.structure')) ∧
    (∀ (context : OptimizationContext) (term : Term) (t : ℤ)
       (s inst : ℕ) (agg : TimeAggregator) (ids : List ℤ),
       term.timeAggregator = some agg →
       term.timeOperator = some (TimeOperator.timeEvaluation ids) →
       getSolverVars term context t s inst =
         ids.map (fun i => getComponentVariable context i s
           term.componentId term.variableName term.structure')) ∧
    (∀ (context : OptimizationContext) (term : Term) (t : ℤ)
       (s inst : ℕ) (agg : TimeAggregator),
       term.timeAggregator = some agg →
       term.timeOperator = none →
       getSolverVars term context t s inst =
         (List.range (blockLength context)).map
           (fun i => getComponentVariable context (t + (i : ℤ)) s
             term.componentId term.variableName term.structure')) ∧
    (∀ (context : OptimizationContext) (term : Term) (t : ℤ)
       (s inst : ℕ) (ids : List ℤ) (h : inst < ids.length),
       term.timeAggregator = none →
       term.timeOperator = some (TimeOperator.timeShift ids) →
       getSolverVars term context t s inst =
         [getComponentVariable context (t + ids.get ⟨inst, h⟩) s
           term.componentId term.variableName term.structure']) ∧
    (∀ (context : OptimizationContext) (term : Term) (t : ℤ)
       (s inst : ℕ) (ids : List ℤ) (h : inst < ids.length),
       term.timeAggregator = none →
       term.timeOperator = some (TimeOperator.timeEvaluation ids) →
       getSolverVars term context t s inst =
         [getComponentVariable context (ids.get ⟨inst, h⟩) s
           term.componentId term.variableName term.structure']) ∧
    (∀ (context : OptimizationContext) (term : Term) (t : ℤ)
       (s inst : ℕ),
       term.timeAggregator = none →
       term.timeOperator = none →
       getSolverVars term context t s inst =
         [getComponentVariable context t s
           term.componentId term.variableName term.structure']) ∧
    (∀ (context : OptimizationContext) (t : ℤ) (s : ℕ)
       (componentId variableName : String) (st : IndexingStructure),
       getComponentVariable context t s componentId variableName st =
         (manageBorderTimesteps context t).bind
           (fun bt => context.componentVariables
             ⟨componentId, variableName, if st.time then bt else 0,
              if st.scenario then s else 0⟩)) ∧
    (∀ (context : OptimizationContext) (t : ℤ) (s : ℕ)
       (componentId variableName : String) (st : IndexingStructure),
       st.scenario = false →
       getComponentVariable context t s componentId variableName st =
         getComponentVariable context t 0 componentId variableName st) ∧
    (∀ (context : OptimizationContext) (t : ℤ),
       context.borderManagement = BlockBorderManagement.CYCLE →
       0 < blockLength context →
       ((List.range (blockLength context)).map
           (fun i : ℕ => manageBorderTimesteps context (t + (i : ℤ)))).Perm
         ((List.range (blockLength context)).map
           (fun i : ℕ => some ((i : ℕ) : ℤ)))) := by
  refine ⟨?_, ?_, ?_, ?_, ?_, ?_, ?_, ?_, ?_⟩
  · intro context term t s inst agg ids hagg hop
    simp only [getSolverVars, hagg, hop]
  · intro context term t s inst agg ids hagg hop
    simp only [getSolverVars, hagg, hop]
  · intro context term t s inst agg hagg hop
    simp only [getSolverVars, hagg, hop]
  · intro context term t s inst ids h hagg hop
    simp only [getSolverVars, hagg, hop, List.get?_eq_get h,
      Option.some_bind]
  · intro context term t s inst ids h hagg hop
    simp only [getSolverVars, hagg, hop, List.get?_eq_get h,
      Option.some_bind]
  · intro context term t s inst hagg hop
    simp only [getSolverVars, hagg, hop]
  · intro context t s componentId variableName st
    unfold getComponentVariable
    cases manageBorderTimesteps context t with
    | none => rfl
    | some bt =>
        cases hst : st.time <;> cases hss : st.scenario <;>
          simp [hst, hss]
  · intro context t s componentId variableName st hss
    unfold getComponentVariable
    cases manageBorderTimesteps context t with
    | none => rfl
    | some bt => simp [hss]
  · exact manageBorder_block_cover

/-- C2 witness: selected rows of the resolution table and the block-cover
permutation evaluated on a concrete two-timestep context. -/
theorem C2_term_resolution_table_witness :
    getSolverVars termC2shift ctxC2 0 0 0 =
      ([1, 2] : List ℤ).map (fun o => getComponentVariable ctxC2 (0 + o) 0
        termC2shift.componentId termC2shift.variableName
        termC2shift.structure') ∧
    getSolverVars termC2shiftNoAgg ctxC2 0 0 1 =
      [getComponentVariable ctxC2
        (0 + ([1, 2] : List ℤ).get ⟨1, by decide⟩) 0
        termC2shiftNoAgg.componentId termC2shiftNoAgg.variableName
        termC2shiftNoAgg.structure'] ∧
    getSolverVars termC2none ctxC2 5 0 0 =
      [getComponentVariable ctxC2 5 0 termC2none.componentId
        termC2none.variableName termC2none.structure'] ∧
    ((List.range (blockLength ctxC2)).map
        (fun i : ℕ => manageBorderTimesteps ctxC2 (5 + (i : ℤ)))).Perm
      ((List.range (blockLength ctxC2)).map
        (fun i : ℕ => some ((i : ℕ) : ℤ))) :=
  ⟨C2_term_resolution_table.1 ctxC2 termC2shift 0 0 0
     (TimeAggregator.timeSum false) [1, 2] rfl rfl,
   C2_term_resolution_table.2.2.2.1 ctxC2 termC2shiftNoAgg 0 0 1 [1, 2]
     (by decide) rfl rfl,
   C2_term_resolution_table.2.2.2.2.2.1 ctxC2 termC2none 5 0 0 rfl rfl,
   C2_term_resolution_table.2.2.2.2.2.2.2.2 ctxC2 5 rfl (by decide)⟩

/-! ## Claim C3 -/

theorem foldl_setCoeff_untouched (handles : ℕ → ℕ) (wc : ℚ) :
    ∀ (l : List ℕ) (acc : List (ℕ × ℚ)) (v : ℕ),
    (∀ s ∈ l, handles s ≠ v) →
    getCoeff
        (l.foldl
          (fun o s => setCoeff o (handles s) (getCoeff o (handles s) + wc))
          acc) v =
      getCoeff acc v := by
  intro l
  induction l with
  | nil => intro acc v _; rfl
  | cons a l' ih =>
      intro acc v hne
      simp only [List.foldl_cons]
      rw [ih _ v (fun s hs => hne s (List.mem_cons_of_mem a hs))]
      exact getCoeff_setCoeff_ne acc (handles a) v _
        (Ne.symm (hne a (List.mem_cons_self a l')))

theorem foldl_setCoeff_touched (handles : ℕ → ℕ) (wc : ℚ) :
    ∀ (l : List ℕ) (acc : List (ℕ × ℚ)),
    l.Nodup →
    (∀ x ∈ l, ∀ y ∈ l, handles x = handles y → x = y) →
    ∀ s ∈ l,
    getCoeff
        (l.foldl
          (fun o u => setCoeff o (handles u) (getCoeff o (handles u) + wc))
          acc) (handles s) =
      getCoeff acc (handles s) + wc := by
  intro l
  induction l with
  | nil => intro acc _ _ s hs; cases hs
  | cons a l' ih =>
      intro acc hnd hinj s hs
      simp only [List.foldl_cons]
      rcases List.mem_cons.mp hs with rfl | hs'
      · have huntouched : ∀ u ∈ l', handles u ≠ handles s := by
          intro u hu heq
          have hus : u = s :=
            hinj u (List.mem_cons_of_mem _ hu) s (List.mem_cons_self _ _) heq
          exact (List.nodup_cons.mp hnd).1 (hus ▸ hu)
        rw [foldl_setCoeff_untouched handles wc l' _ _ huntouched]
        exact getCoeff_setCoeff_self acc (handles s) _
      · have hne : handles a ≠ handles s := by
          intro heq
          have has : a = s :=
            hinj a (List.mem_cons_self _ _) s (List.mem_cons_of_mem _ hs') heq
          exact (List.nodup_cons.mp hnd).1 (has ▸ hs')
        rw [ih (setCoeff acc (handles a) (getCoeff acc (handles a) + wc))
          (List.nodup_cons.mp hnd).2
          (fun x hx y hy =>
            hinj x (List.mem_cons_of_mem _ hx) y (List.mem_cons_of_mem _ hy))
          s hs']
        rw [getCoeff_setCoeff_ne acc (handles a) (handles s) _ (Ne.symm hne)]

theorem foldlM_option_of_steps {α β : Type} (F : β → α → Option β)
    (g : β → α → β) :
    ∀ (l : List α) (acc : β),
    (∀ s ∈ l, ∀ b, F b s = some (g b s)) →
    l.foldlM F acc = some (l.foldl g acc) := by
  intro l
  induction l with
  | nil => intro acc _; rfl
  | cons a l' ih =>
      intro acc h
      rw [List.foldlM_cons, h a (List.mem_cons_self a l') acc]
      simp only [Option.bind_eq_bind, Option.some_bind, List.foldl_cons]
      exact ih (g acc a) (fun s hs b => h s (List.mem_cons_of_mem a hs) b)

/-- C3: in objective assembly, a term tagged with the `Expectation`
scenario-operator contributes `coefficient / scenario_count` to the
handle resolved at each of the `scenario_count` scenarios (and touches no
other handle), while a term without a scenario-operator contributes its
full coefficient exactly once, to the handle resolved at scenario 0. -/
theorem C3_objective_expectation_weighting :
    (∀ (context : OptimizationContext) (coeffs : List (ℕ × ℚ))
       (term : Term) (handles : ℕ → ℕ),
       term.scenarioOperator = some ScenarioOperator.expectation →
       0 < context.scenarios →
       (∀ s, s < context.scenarios →
          getSolverVars term context 0 s 0 = [some (handles s)]) →
       (∀ x, x < context.scenarios → ∀ y, y < context.scenarios →
          handles x = handles y → x = y) →
       ∃ result, applyObjectiveTerm context coeffs term = some result ∧
         (∀ s, s < context.scenarios →
            getCoeff result (handles s) =
              getCoeff coeffs (handles s) +
                term.coefficient / (context.scenarios : ℚ)) ∧
         (∀ v, (∀ s, s < context.scenarios → handles s ≠ v) →
            getCoeff result v = getCoeff coeffs v)) ∧
    (∀ (context : OptimizationContext) (coeffs : List (ℕ × ℚ))
       (term : Term) (h0 : ℕ),
       term.scenarioOperator = none →
       getSolverVars term context 0 0 0 = [some h0] →
       ∃ result, applyObjectiveTerm context coeffs term = some result ∧
         getCoeff result h0 = getCoeff coeffs h0 + term.coefficient ∧
         (∀ v, v ≠ h0 → getCoeff result v = getCoeff coeffs v)) := by
  constructor
  · intro context coeffs term handles hop hS hres hinj
    set wc : ℚ := 1 / (context.scenarios : ℚ) * term.coefficient with hwc
    have hF : ∀ s ∈ List.range context.scenarios, ∀ b : List (ℕ × ℚ),
        (allSome (getSolverVars term context 0 s 0)).map
            (fun solverVars =>
              solverVars.foldl
                (fun o v => setCoeff o v (getCoeff o v + wc)) b) =
          some (setCoeff b (handles s) (getCoeff b (handles s) + wc)) := by
      intro s hs b
      rw [hres s (List.mem_range.mp hs)]
      rfl
    refine ⟨(List.range context.scenarios).foldl
        (fun o s => setCoeff o (handles s) (getCoeff o (handles s) + wc))
        coeffs, ?_, ?_, ?_⟩
    · simp only [applyObjectiveTerm, hop]
      exact foldlM_option_of_steps _ _ _ coeffs hF
    · intro s hsS
      rw [foldl_setCoeff_touched handles wc _ coeffs (List.nodup_range _)
        (fun x hx y hy =>
          hinj x (List.mem_range.mp hx) y (List.mem_range.mp hy))
        s (List.mem_range.mpr hsS)]
      rw [hwc, one_div_mul_eq_div]
    · intro v hv
      exact foldl_setCoeff_untouched handles wc _ coeffs v
        (fun s hs => hv s (List.mem_range.mp hs))
  · intro context coeffs term h0 hop hres
    refine ⟨setCoeff coeffs h0 (getCoeff coeffs h0 + term.coefficient),
      ?_, ?_, ?_⟩
    · simp only [applyObjectiveTerm, hop]
      rw [show List.range 1 = [0] from rfl, List.foldlM_cons, hres]
      simp [allSome]
    · exact getCoeff_setCoeff_self coeffs h0 _
    · intro v hv
      exact getCoeff_setCoeff_ne coeffs h0 v _ hv

/-- C3 witness: the Expectation and plain cases evaluated on a concrete
two-scenario context. -/
theorem C3_objective_expectation_weighting_witness :
    (∃ result, applyObjectiveTerm ctxC3 [] termC3 = some result ∧
       (∀ s, s < ctxC3.scenarios →
          getCoeff result (hC3 s) =
            getCoeff [] (hC3 s) +
              termC3.coefficient / (ctxC3.scenarios : ℚ)) ∧
       (∀ v, (∀ s, s < ctxC3.scenarios → hC3 s ≠ v) →
          getCoeff result v = getCoeff [] v)) ∧
    (∃ result, applyObjectiveTerm ctxC3 [] termC3plain = some result ∧
       getCoeff result 100 = getCoeff [] 100 + termC3plain.coefficient ∧
       (∀ v, v ≠ 100 → getCoeff result v = getCoeff [] v)) :=
  ⟨C3_objective_expectation_weighting.1 ctxC3 [] termC3 hC3 rfl
     (by decide) (fun s _ => rfl)
     (by
       intro x _ y _ h
       simp only [hC3] at h
       omega),
   C3_objective_expectation_weighting.2 ctxC3 [] termC3plain 100 rfl rfl⟩

/-! ## Claim C4 -/


/-- C4 counterexample: building the operational-only subproblem
(`xpansion_subproblem`) does not skip investment-context variables — the
concrete investment variable is still created
(`_create_variables` only filters operational variables out of the
`xpansion_master` build). -/
theorem C4_subproblem_creates_investment_variable_counterexample :
    createVariables ProblemType.xpansionSubproblem ctxC4 netC4 = [keyC4] ∧
    keyC4 ∈ createVariables ProblemType.xpansionSubproblem ctxC4 netC4 := by
  have h : createVariables ProblemType.xpansionSubproblem ctxC4 netC4 =
      [keyC4] := rfl
  exact ⟨h, by rw [h]; exact List.mem_singleton_self keyC4⟩

/-- C4 (amended): the build-variant partition filter acts as follows —
the investment-only master (`xpansion_master`) omits every
operational-context variable from the variable set and admits only
investment contributions into the objective; the operational-only
subproblem (`xpansion_subproblem`) creates exactly the same variable set
as a full build (investment-context variables are not skipped) and
admits only operational contributions into the objective. -/
theorem C4_partition_filter :
    (∀ (context : OptimizationContext) (network : Network)
       (k : TimestepComponentVariableKey),
       k ∈ createVariables ProblemType.xpansionMaster context network →
       ∃ component ∈ allComponents network,
         ∃ modelVar ∈ component.model.variables',
           modelVar.context ≠ ProblemContext.operational ∧
           k.componentId = component.id ∧ k.variableName = modelVar.name) ∧
    (∀ (network : Network) (p : String × ContributionKind),
       p ∈ createObjectives ProblemType.xpansionMaster network →
       p.2 = ContributionKind.investment) ∧
    (∀ (context : OptimizationContext) (network : Network),
       createVariables ProblemType.xpansionSubproblem context network =
         createVariables ProblemType.simulator context network) ∧
    (∀ (network : Network) (p : String × ContributionKind),
       p ∈ createObjectives ProblemType.xpansionSubproblem network →
       p.2 = ContributionKind.operational) := by
  refine ⟨?_, ?_, ?_, ?_⟩
  · intro context network k hk
    simp only [createVariables, List.mem_flatMap] at hk
    obtain ⟨component, hcomp, modelVar, hvar, hk⟩ := hk
    by_cases hop : modelVar.context = ProblemContext.operational
    · rw [if_pos ⟨trivial, hop⟩] at hk
      exact absurd hk (List.not_mem_nil k)
    · rw [if_neg (fun hand => hop hand.2)] at hk
      simp only [List.mem_flatMap, List.mem_map] at hk
      obtain ⟨bt, _, s, _, rfl⟩ := hk
      exact ⟨component, hcomp, modelVar, hvar, hop, rfl, rfl⟩
  · intro network p hp
    simp only [createObjectives, List.mem_flatMap] at hp
    obtain ⟨component, _, hp⟩ := hp
    simp only [ne_eq, not_true_eq_false, false_and, if_false,
      List.nil_append] at hp
    split at hp
    · obtain rfl := List.mem_singleton.mp hp
      rfl
    · exact absurd hp (List.not_mem_nil p)
  · intro context network
    rfl
  · intro network p hp
    simp only [createObjectives, List.mem_flatMap] at hp
    obtain ⟨component, _, hp⟩ := hp
    simp only [ne_eq, not_true_eq_false, false_and, if_false,
      List.append_nil] at hp
    split at hp
    · obtain rfl := List.mem_singleton.mp hp
      rfl
    · exact absurd hp (List.not_mem_nil p)

/-- C4 witness: the amended partition filter evaluated on the concrete
network `netC4`. -/
theorem C4_partition_filter_witness :
    (∃ component ∈ allComponents netC4,
       ∃ modelVar ∈ component.model.variables',
         modelVar.context ≠ ProblemContext.operational ∧
         keyC4.componentId = component.id ∧
         keyC4.variableName = modelVar.name) ∧
    createVariables ProblemType.xpansionSubproblem ctxC4 netC4 =
      createVariables ProblemType.simulator ctxC4 netC4 :=
  ⟨C4_partition_filter.1 ctxC4 netC4 keyC4
     (by
       rw [show createVariables ProblemType.xpansionMaster ctxC4 netC4 =
           [keyC4] from rfl]
       exact List.mem_singleton_self keyC4),
   C4_partition_filter.2.2.1 ctxC4 netC4⟩

/-- C9 witness: the group law evaluated on a concrete expression, and
pruning exercised on the negation of that concrete expression. -/
theorem C9_linear_expression_group_and_pruning_witness :
    addExpr exprC9 (negExpr exprC9) = ⟨[], 0⟩ ∧
    ∀ t ∈ (negExpr exprC9).terms, t.coefficient ≠ 0 :=
  ⟨C9_linear_expression_group_and_pruning.1 exprC9,
   C9_linear_expression_group_and_pruning.2.2.2.2.1 exprC9
     (by
       intro u hu
       cases hu with
       | head => norm_num [exprC9]
       | tail _ h => cases h)⟩

end Andromede
